import Mathlib

/-!
Shallow embedding of the Eclipse logging library (`src/src/Logger.cpp`,
`src/include/Eclipse/Logger.h`) and verification of its specification.

Strings are modelled as Lean `String` (char sequences); the C++ std::string
index-based operations (`find`, `substr`, `erase` with `find_first_not_of` /
`find_last_not_of`) are embedded as the corresponding char-list operations.
The filesystem is modelled as a map from paths to an optional list of lines
(`none` = file absent/unopenable), mirroring `std::ifstream` + `getline`.
Stateful mutation of `currentLevel` is embedded by explicit state passing:
each config-loading function takes the prior level and returns the pair
(return value, resulting level).
-/

/-- Severity ladder from `Logger.h` (`enum class LogLevel`): DEBUG < INFO <
WARN < ERR < NONE, with NONE the suppress-everything sentinel threshold. -/
inductive LogLevel where
  | DEBUG
  | INFO
  | WARN
  | ERR
  | NONE
deriving DecidableEq, Repr

/-- Underlying ordinal of a `LogLevel`, as the C++ enum value. -/
def LogLevel.toNat : LogLevel → Nat
  | .DEBUG => 0
  | .INFO => 1
  | .WARN => 2
  | .ERR => 3
  | .NONE => 4

/-- The C++ `level < currentLevel` comparison on the enum class (compares
underlying integral values). -/
def levelLt (a b : LogLevel) : Bool := a.toNat < b.toNat

/-- A filesystem: maps a path to the file's lines, or `none` when the file
does not exist / cannot be opened (`std::ifstream::is_open` false). -/
def FS : Type := String → Option (List String)

/-- Index of the first occurrence of `pat` in a char list (C++
`std::string::find` for a string pattern); `none` = `npos`. -/
def findSubList (pat : List Char) : List Char → Option Nat
  | [] => if pat.isPrefixOf ([] : List Char) then some 0 else none
  | l@(_ :: t) =>
    if pat.isPrefixOf l then some 0 else (findSubList pat t).map (· + 1)

/-- Index of the last char satisfying `p` (C++ `find_last_of` over a char
set); `none` = `npos`. -/
def findLastIdx (p : Char → Bool) : List Char → Option Nat
  | [] => none
  | x :: t =>
    match findLastIdx p t with
    | some i => some (i + 1)
    | none => if p x then some 0 else none

/-- Chars trimmed from a level token by `parseLogLevelString`: the C++ set
literal holding space, tab, CR, LF, double quote and single quote. -/
def isLevelTrimChar (c : Char) : Bool :=
  c = ' ' || c = '\t' || c = '\r' || c = '\n' || c = '"' || c = '\''

/-- Trim of leading then trailing `isLevelTrimChar` chars, embedding the two
`erase`/`find_first_not_of`/`find_last_not_of` calls in
`Logger::parseLogLevelString`. -/
def trimLevelToken (l : List Char) : List Char :=
  ((l.dropWhile isLevelTrimChar).reverse.dropWhile isLevelTrimChar).reverse

/-- The `levelMap` table of `Logger::parseLogLevelString` (an unordered map
with distinct keys, embedded as an association list). -/
def levelMap : List (String × LogLevel) :=
  [("DEBUG", .DEBUG), ("INFO", .INFO), ("WARNING", .WARN), ("WARN", .WARN),
   ("ERROR", .ERR), ("ERR", .ERR),
   ("0", .DEBUG), ("1", .INFO), ("2", .WARN), ("3", .ERR)]

/-- `Logger::parseLogLevelString`: reject empty input, trim
whitespace/quotes, reject if nothing remains, uppercase, and look the token
up in `levelMap`. `some l` embeds `return true` with out-parameter `l`;
`none` embeds `return false`. -/
def parseLogLevelString (levelStr : String) : Option LogLevel :=
  if levelStr.data = [] then none
  else
    let clean := trimLevelToken levelStr.data
    if clean = [] then none
    else levelMap.lookup (String.mk (clean.map Char.toUpper))

/-- The trimmed-and-uppercased form of a candidate level token, as computed
inside `parseLogLevelString` before the map lookup. -/
def normalizedLevelToken (s : String) : String :=
  String.mk ((trimLevelToken s.data).map Char.toUpper)

/-- `Logger::parseEnvFile`'s line loop: skip empty lines and lines whose
first char is `#`; on the first line that begins (at index 0) with
`LOG_LEVEL=`, parse the remainder — on success return `true` with the new
level, on failure `break` out of the loop and return `false` (the prior
level untouched); all other lines are skipped. -/
def parseEnvFileLines : List String → LogLevel → Bool × LogLevel
  | [], prior => (false, prior)
  | line :: rest, prior =>
    match line.data with
    | [] => parseEnvFileLines rest prior
    | c :: _ =>
      if c = '#' then parseEnvFileLines rest prior
      else if "LOG_LEVEL=".data.isPrefixOf line.data then
        match parseLogLevelString (String.mk (line.data.drop 10)) with
        | some l => (true, l)
        | none => (false, prior)
      else parseEnvFileLines rest prior

/-- `Logger::parseEnvFile`: open the file (absent file gives `false`) and
run the line loop. -/
def parseEnvFile (fs : FS) (filePath : String) (prior : LogLevel) :
    Bool × LogLevel :=
  match fs filePath with
  | none => (false, prior)
  | some lines => parseEnvFileLines lines prior

/-- Leading-trim char set used by `Logger::parseIniFile` (space and tab). -/
def isIniWs (c : Char) : Bool := c = ' ' || c = '\t'

/-- Trailing-trim char set for a raw `.ini` line (space, tab, CR, LF). -/
def isIniTrail (c : Char) : Bool :=
  c = ' ' || c = '\t' || c = '\r' || c = '\n'

/-- Trailing-trim char set for an `.ini` value (space, tab, CR, LF, double
quote, single quote). -/
def isIniValueTrail (c : Char) : Bool :=
  c = ' ' || c = '\t' || c = '\r' || c = '\n' || c = '"' || c = '\''

/-- Whole-line trim in `parseIniFile`: erase leading space/tab, then
trailing space/tab/CR/LF. -/
def trimIniLine (l : List Char) : List Char :=
  ((l.dropWhile isIniWs).reverse.dropWhile isIniTrail).reverse

/-- Key trim in `parseIniFile`: erase trailing space/tab only. -/
def trimIniKey (l : List Char) : List Char :=
  (l.reverse.dropWhile isIniWs).reverse

/-- Value trim in `parseIniFile`: erase leading space/tab, then trailing
space/tab/CR/LF/quotes. -/
def trimIniValue (l : List Char) : List Char :=
  ((l.dropWhile isIniWs).reverse.dropWhile isIniValueTrail).reverse

/-- Recognized section names of `parseIniFile`, compared lowercased. -/
def isLoggingSection (sectionName : List Char) : Bool :=
  sectionName == "logging".data || sectionName == "log".data
    || sectionName == "debugging".data || sectionName == "debug".data

/-- `Logger::parseIniFile`'s line loop, with the two loop-carried flags
`inLoggingSection` and `foundLogLevel` as explicit parameters. Each raw line
is trimmed; empty lines and `;`/`#` comments are skipped; a `[...]` line
updates `inLoggingSection`; otherwise the line is split at its first `=`,
the key trailing-trimmed and uppercased, the value trimmed, and a
`LOG_LEVEL` key is acted on when in a recognized section or when no
occurrence has been seen yet — a parseable value returns `true` with the
new level, an unparseable one sets `foundLogLevel` and scanning goes on. -/
def parseIniLines : List String → Bool → Bool → LogLevel → Bool × LogLevel
  | [], _, _, prior => (false, prior)
  | rawLine :: rest, inLoggingSection, foundLogLevel, prior =>
    match trimIniLine rawLine.data with
    | [] => parseIniLines rest inLoggingSection foundLogLevel prior
    | line@(c :: _) =>
      if c = ';' || c = '#' then
        parseIniLines rest inLoggingSection foundLogLevel prior
      else if c = '[' && line.getLast? == some ']' then
        let sectionName :=
          ((line.drop 1).take (line.length - 2)).map Char.toLower
        parseIniLines rest (isLoggingSection sectionName) foundLogLevel prior
      else
        match findSubList ['='] line with
        | none => parseIniLines rest inLoggingSection foundLogLevel prior
        | some equalPos =>
          let key := (trimIniKey (line.take equalPos)).map Char.toUpper
          let value := trimIniValue (line.drop (equalPos + 1))
          if key = "LOG_LEVEL".data
              && (inLoggingSection || !foundLogLevel) then
            match parseLogLevelString (String.mk value) with
            | some l => (true, l)
            | none => parseIniLines rest inLoggingSection true prior
          else parseIniLines rest inLoggingSection foundLogLevel prior

/-- `Logger::parseIniFile`: open the file (absent file gives `false`) and
run the line loop with both flags initially `false`. -/
def parseIniFile (fs : FS) (filePath : String) (prior : LogLevel) :
    Bool × LogLevel :=
  match fs filePath with
  | none => (false, prior)
  | some lines => parseIniLines lines false false prior

/-- Extension of a path as computed by `Logger::loadConfigFromFile`: the
substring from the last `.` onward, lowercased; `none` when the path has
no dot. -/
def extensionOf (configPath : String) : Option String :=
  (findLastIdx (fun c => c = '.') configPath.data).map
    (fun dotPos => String.mk ((configPath.data.drop dotPos).map Char.toLower))

/-- `Logger::loadConfigFromFile`: reject an empty path, reject a path with
no extension, dispatch on the lowercased extension to the `.env` or `.ini`
parser, and reject any other extension. -/
def loadConfigFromFile (fs : FS) (configPath : String) (prior : LogLevel) :
    Bool × LogLevel :=
  if configPath.data = [] then (false, prior)
  else
    match extensionOf configPath with
    | none => (false, prior)
    | some extension =>
      if extension = ".env" then parseEnvFile fs configPath prior
      else if extension = ".ini" then parseIniFile fs configPath prior
      else (false, prior)

/-- `Logger::loadEnvLogLevel`: try `.env`, then `.ini`, `config.ini`,
`settings.ini` in order, stopping at the first parser that reports success;
when none succeeds, explicitly set the level to DEBUG. -/
def loadEnvLogLevel (fs : FS) (prior : LogLevel) : LogLevel :=
  match parseEnvFile fs ".env" prior with
  | (true, l) => l
  | (false, _) =>
    match parseIniFile fs ".ini" prior with
    | (true, l) => l
    | (false, _) =>
      match parseIniFile fs "config.ini" prior with
      | (true, l) => l
      | (false, _) =>
        match parseIniFile fs "settings.ini" prior with
        | (true, l) => l
        | (false, _) => LogLevel.DEBUG

/-- The `Logger()` constructor's effect on `currentLevel`: initialize to
DEBUG, then run `loadEnvLogLevel`. -/
def loggerConstruct (fs : FS) : LogLevel := loadEnvLogLevel fs LogLevel.DEBUG

/-- Separator test of `Logger::extractFilename` (`find_last_of` over the
two-char set backslash and slash). -/
def isPathSep (c : Char) : Bool := c = '\\' || c = '/'

/-- `Logger::extractFilename`: locate the first `at `, locate the first `:`
at or after the path start, take the chars between them as the path, keep
only what follows the last `/` or `\`, and reassemble the trace around it.
When `at ` or `:` is absent the trace is returned unchanged. -/
def extractFilename (trace : String) : String :=
  let l := trace.data
  match findSubList "at ".data l with
  | none => trace
  | some atPos =>
    let pathStart := atPos + 3
    match (findSubList [':'] (l.drop pathStart)).map (· + pathStart) with
    | none => trace
    | some colonPos =>
      let fullPath := (l.drop pathStart).take (colonPos - pathStart)
      let filename :=
        match findLastIdx isPathSep fullPath with
        | some lastSep => fullPath.drop (lastSep + 1)
        | none => fullPath
      String.mk (l.take pathStart ++ filename ++ l.drop colonPos)

/-- Final path component in the sense of the specification: the chars after
the last `/` or `\` separator (the whole string when no separator occurs). -/
def lastComponent (p : String) : String :=
  String.mk
    (p.data.foldl (fun acc c => if isPathSep c then [] else acc ++ [c]) [])

/-- ANSI reset sequence used by `Logger::logInternal`. -/
def ansiReset : String := "\x1b[0m"

/-- ANSI dim/bright-black sequence used by `Logger::logInternal`. -/
def ansiDim : String := "\x1b[90m"

/-- ANSI white sequence used by `Logger::logInternal`. -/
def ansiWhite : String := "\x1b[37m"

/-- `Logger::getColor`: ANSI color per severity, reset for the default
branch. -/
def getColor : LogLevel → String
  | .DEBUG => "\x1b[36m"
  | .INFO => "\x1b[32m"
  | .WARN => "\x1b[33m"
  | .ERR => "\x1b[31m"
  | _ => "\x1b[0m"

/-- `Logger::getLevelName`: lowercase display name per severity, `unknown`
for the default branch. -/
def getLevelName : LogLevel → String
  | .DEBUG => "debug"
  | .INFO => "info"
  | .WARN => "warn"
  | .ERR => "error"
  | _ => "unknown"

/-- The `std::setw(5) << std::left` padding of the level name. -/
def padLevelName (s : String) : String :=
  s ++ String.mk (List.replicate (5 - s.data.length) ' ')

/-- The alignment padding of `logInternal`: spaces matching the length of
the plain prefix `[timestamp] ` + five spaces + `: `. -/
def linePadding (timestamp : String) : String :=
  String.mk
    (List.replicate
      ("[" ++ timestamp ++ "] " ++ String.mk (List.replicate 5 ' ')
        ++ ": ").data.length ' ')

/-- Main log line of `logInternal`:
`[timestamp] level: ┏ [tag] message` with its color escapes. -/
def mainLine (timestamp : String) (level : LogLevel)
    (tag message : String) : String :=
  ansiDim ++ "[" ++ timestamp ++ "] " ++ ansiReset
    ++ getColor level ++ padLevelName (getLevelName level) ++ ansiReset
    ++ ansiWhite ++ ":" ++ ansiReset
    ++ ansiWhite ++ " ┏ [" ++ getColor level ++ tag ++ ansiReset ++ "] "
    ++ ansiWhite ++ message ++ ansiReset ++ "\n"

/-- Trace line of `logInternal` with its connector glyph: the trace is first
shortened by `extractFilename`; when it still holds `at `, everything from
there is rendered after `glyph ++ " at "`, otherwise the whole cleaned trace
follows the glyph. -/
def traceLine (timestamp glyph trace : String) : String :=
  let cleanTrace := extractFilename trace
  match findSubList "at ".data cleanTrace.data with
  | some atPos =>
    ansiWhite ++ linePadding timestamp ++ glyph ++ " at " ++ ansiDim
      ++ String.mk (cleanTrace.data.drop (atPos + 3)) ++ ansiReset ++ "\n"
  | none =>
    ansiWhite ++ linePadding timestamp ++ glyph ++ " " ++ ansiDim
      ++ cleanTrace ++ ansiReset ++ "\n"

/-- Details line of `logInternal`: closing glyph, `[1]` marker, details. -/
def detailLine (timestamp details : String) : String :=
  ansiWhite ++ linePadding timestamp ++ "┗ [1] " ++ ansiDim ++ details
    ++ ansiReset ++ "\n"

/-- The full block assembled by `logInternal` after the level gate: the main
line, then — exactly as the C++ branches — a closing-glyph trace line when
the trace is present and the details are empty, and otherwise a
continuation-glyph trace line when the trace is present followed by the
closing details line when the details are present. -/
def renderBlock (timestamp : String) (level : LogLevel)
    (tag message details trace : String) : String :=
  mainLine timestamp level tag message
    ++ (if trace ≠ "" ∧ details = "" then traceLine timestamp "┗" trace
        else (if trace ≠ "" then traceLine timestamp "┃" trace else "")
          ++ (if details ≠ "" then detailLine timestamp details else ""))

/-- `Logger::logInternal` as a function from the observed `currentLevel`
(read under the level lock) and the timestamp to the optional text written
to stdout: `none` embeds the early `return` of the level gate, `some`
carries the rendered block. -/
def logInternal (currentLevel : LogLevel) (timestamp : String)
    (level : LogLevel) (tag message details trace : String) :
    Option String :=
  if levelLt level currentLevel then none
  else some (renderBlock timestamp level tag message details trace)

/-- Claim C1: a `log` call produces output iff its level passes the gate
`level < currentLevel` checked against the current threshold — equivalently
iff `level >= currentLevel` — and a passing event is rendered and written;
a NONE threshold admits no event (event levels never being NONE), and a
DEBUG threshold admits every event. -/
theorem C1_level_gate (currentLevel level : LogLevel)
    (timestamp tag message details trace : String) :
    ((logInternal currentLevel timestamp level tag message details
        trace).isSome = true
      ↔ currentLevel.toNat ≤ level.toNat)
    ∧ (currentLevel.toNat ≤ level.toNat →
        logInternal currentLevel timestamp level tag message details trace
          = some (renderBlock timestamp level tag message details trace))
    ∧ (currentLevel = LogLevel.NONE → level ≠ LogLevel.NONE →
        logInternal currentLevel timestamp level tag message details trace
          = none)
    ∧ (currentLevel = LogLevel.DEBUG →
        (logInternal currentLevel timestamp level tag message details
          trace).isSome = true) := by
  cases currentLevel <;> cases level <;>
    simp [logInternal, levelLt, LogLevel.toNat]

/-- Witness for C1 at concrete inputs: a NONE threshold suppresses an ERR
event, a DEBUG threshold admits a DEBUG event. -/
theorem C1_level_gate_witness :
    logInternal LogLevel.NONE "ts" LogLevel.ERR "tag" "msg" "" "" = none
    ∧ (logInternal LogLevel.DEBUG "ts" LogLevel.DEBUG "tag" "msg" ""
        "").isSome = true :=
  ⟨(C1_level_gate LogLevel.NONE LogLevel.ERR "ts" "tag" "msg" "" "").2.2.1
      rfl (by decide),
   (C1_level_gate LogLevel.DEBUG LogLevel.DEBUG "ts" "tag" "msg" ""
      "").2.2.2 rfl⟩

/-- Concrete filesystem holding one `.env` file with `LOG_LEVEL=ERROR`
followed by `LOG_LEVEL=INFO`, and one `.ini` file with the same lines. -/
def fsErrorThenInfo : FS := fun p =>
  if p = "cfg.env" then some ["LOG_LEVEL=ERROR", "LOG_LEVEL=INFO"]
  else if p = "cfg.ini" then some ["LOG_LEVEL=ERROR", "LOG_LEVEL=INFO"]
  else none

/-- Counterexample to claim C2: loading a file with `LOG_LEVEL=ERROR`
followed later by `LOG_LEVEL=INFO` yields ERROR (the first valid
occurrence), not INFO as the claim states. -/
theorem C2_counterexample :
    loadConfigFromFile fsErrorThenInfo "cfg.env" LogLevel.DEBUG
      = (true, LogLevel.ERR)
    ∧ LogLevel.ERR ≠ LogLevel.INFO := by
  exact ⟨rfl, by decide⟩

/-- Claim C2 as amended: within a single file the first syntactically valid
`LOG_LEVEL` occurrence wins — in a `.env` file any later lines are ignored
once a valid value is parsed, and in an `.ini` file `LOG_LEVEL=ERROR`
followed by `LOG_LEVEL=INFO` likewise yields ERROR. -/
theorem C2_first_valid_wins (v : String) (rest : List String)
    (prior l : LogLevel) (h : parseLogLevelString v = some l) :
    parseEnvFileLines (("LOG_LEVEL=" ++ v) :: rest) prior = (true, l)
    ∧ parseIniLines ["LOG_LEVEL=ERROR", "LOG_LEVEL=INFO"] false false prior
        = (true, LogLevel.ERR) := by
  constructor
  · have hdata : ("LOG_LEVEL=" ++ v).data
        = 'L' :: 'O' :: 'G' :: '_' :: 'L' :: 'E' :: 'V' :: 'E' :: 'L'
          :: '=' :: v.data := by
      rw [String.data_append]; rfl
    have hmk : String.mk v.data = v := rfl
    simp [parseEnvFileLines, hdata, List.isPrefixOf, hmk, h]
  · rfl

/-- Witness for C2's amended theorem: `ERROR` then `INFO` in a `.env` file
yields ERROR. -/
theorem C2_first_valid_wins_witness :
    parseEnvFileLines [("LOG_LEVEL=" ++ "ERROR"), "LOG_LEVEL=INFO"]
      LogLevel.DEBUG = (true, LogLevel.ERR) :=
  (C2_first_valid_wins "ERROR" ["LOG_LEVEL=INFO"] LogLevel.DEBUG
    LogLevel.ERR (by decide)).1

/-- Association-list characterization of the `levelMap` lookup. -/
theorem lookup_levelMap (t : String) (l : LogLevel) :
    levelMap.lookup t = some l ↔
      ((t = "DEBUG" ∨ t = "0") ∧ l = LogLevel.DEBUG)
      ∨ ((t = "INFO" ∨ t = "1") ∧ l = LogLevel.INFO)
      ∨ ((t = "WARNING" ∨ t = "WARN" ∨ t = "2") ∧ l = LogLevel.WARN)
      ∨ ((t = "ERROR" ∨ t = "ERR" ∨ t = "3") ∧ l = LogLevel.ERR) := by
  by_cases h1 : t = "DEBUG"
  · subst h1; cases l <;> decide
  by_cases h2 : t = "INFO"
  · subst h2; cases l <;> decide
  by_cases h3 : t = "WARNING"
  · subst h3; cases l <;> decide
  by_cases h4 : t = "WARN"
  · subst h4; cases l <;> decide
  by_cases h5 : t = "ERROR"
  · subst h5; cases l <;> decide
  by_cases h6 : t = "ERR"
  · subst h6; cases l <;> decide
  by_cases h7 : t = "0"
  · subst h7; cases l <;> decide
  by_cases h8 : t = "1"
  · subst h8; cases l <;> decide
  by_cases h9 : t = "2"
  · subst h9; cases l <;> decide
  by_cases h10 : t = "3"
  · subst h10; cases l <;> decide
  have e1 : (t == "DEBUG") = false := by simp [h1]
  have e2 : (t == "INFO") = false := by simp [h2]
  have e3 : (t == "WARNING") = false := by simp [h3]
  have e4 : (t == "WARN") = false := by simp [h4]
  have e5 : (t == "ERROR") = false := by simp [h5]
  have e6 : (t == "ERR") = false := by simp [h6]
  have e7 : (t == "0") = false := by simp [h7]
  have e8 : (t == "1") = false := by simp [h8]
  have e9 : (t == "2") = false := by simp [h9]
  have e10 : (t == "3") = false := by simp [h10]
  simp [levelMap, List.lookup, e1, e2, e3, e4, e5, e6, e7, e8, e9, e10,
    h1, h2, h3, h4, h5, h6, h7, h8, h9, h10]

/-- Counterexample to claim C3: the token `FATAL` and the numeric string `4`
are rejected by `parseLogLevelString` (the `LogLevel` enum has no FATAL
member and the map holds no such entries), though the claim says both are
accepted. -/
theorem C3_counterexample :
    parseLogLevelString "FATAL" = none ∧ parseLogLevelString "4" = none := by
  decide

/-- Claim C3 as amended: after trimming, quote-stripping and uppercasing,
`parseLogLevelString` accepts exactly the tokens DEBUG, INFO, WARN,
WARNING, ERROR, ERR mapped to their respective severities and the numeric
strings 0, 1, 2, 3 mapped to DEBUG, INFO, WARN, ERROR respectively; every
other string (FATAL and 4 included) is rejected. -/
theorem C3_accepted_tokens (s : String) (l : LogLevel) :
    parseLogLevelString s = some l ↔
      ((normalizedLevelToken s = "DEBUG" ∨ normalizedLevelToken s = "0")
          ∧ l = LogLevel.DEBUG)
      ∨ ((normalizedLevelToken s = "INFO" ∨ normalizedLevelToken s = "1")
          ∧ l = LogLevel.INFO)
      ∨ ((normalizedLevelToken s = "WARNING"
            ∨ normalizedLevelToken s = "WARN"
            ∨ normalizedLevelToken s = "2")
          ∧ l = LogLevel.WARN)
      ∨ ((normalizedLevelToken s = "ERROR"
            ∨ normalizedLevelToken s = "ERR"
            ∨ normalizedLevelToken s = "3")
          ∧ l = LogLevel.ERR) := by
  by_cases h0 : s.data = []
  · have hn : normalizedLevelToken s = "" := by
      simp [normalizedLevelToken, h0, trimLevelToken]
    have hl : parseLogLevelString s = none := by
      simp [parseLogLevelString, h0]
    rw [hn, hl]; cases l <;> decide
  by_cases hc : trimLevelToken s.data = []
  · have hn : normalizedLevelToken s = "" := by
      simp [normalizedLevelToken, hc]
    have hl : parseLogLevelString s = none := by
      simp [parseLogLevelString, h0, hc]
    rw [hn, hl]; cases l <;> decide
  have hl : parseLogLevelString s
      = levelMap.lookup (normalizedLevelToken s) := by
    simp [parseLogLevelString, normalizedLevelToken, h0, hc]
  rw [hl]
  exact lookup_levelMap _ l

/-- Concrete filesystem holding a `.env` file and an `.ini` file whose first
`LOG_LEVEL` line carries the unparseable value `BOGUS`, followed by a valid
`LOG_LEVEL=INFO` line. -/
def fsBogusThenInfo : FS := fun p =>
  if p = "c.env" then some ["LOG_LEVEL=BOGUS", "LOG_LEVEL=INFO"]
  else if p = "c.ini" then some ["LOG_LEVEL=BOGUS", "LOG_LEVEL=INFO"]
  else none

/-- Counterexample to claim C4: in a `.env` file an unparseable `LOG_LEVEL`
value aborts the scan (`break`), so the later valid `LOG_LEVEL=INFO` in the
same file is not accepted — loading fails and the level is unchanged. -/
theorem C4_counterexample :
    loadConfigFromFile fsBogusThenInfo "c.env" LogLevel.DEBUG
        ≠ (true, LogLevel.INFO)
    ∧ loadConfigFromFile fsBogusThenInfo "c.env" LogLevel.DEBUG
        = (false, LogLevel.DEBUG) := by
  exact ⟨by decide, rfl⟩

/-- Claim C4 as amended: in `.env` parsing the first `LOG_LEVEL=` line ends
the scan, so an unparseable value makes the whole file fail regardless of
later lines; in `.ini` parsing an unparseable occurrence is skipped and
scanning continues, but a later occurrence is accepted only inside a
recognized section — a later standalone occurrence is ignored once an
invalid one has been seen. -/
theorem C4_invalid_occurrence (v : String) (rest : List String)
    (prior : LogLevel) (h : parseLogLevelString v = none) :
    parseEnvFileLines (("LOG_LEVEL=" ++ v) :: rest) prior = (false, prior)
    ∧ parseIniLines ["LOG_LEVEL=BOGUS", "[logging]", "LOG_LEVEL=INFO"]
        false false prior = (true, LogLevel.INFO)
    ∧ parseIniLines ["LOG_LEVEL=BOGUS", "LOG_LEVEL=INFO"]
        false false prior = (false, prior) := by
  refine ⟨?_, rfl, rfl⟩
  have hdata : ("LOG_LEVEL=" ++ v).data
      = 'L' :: 'O' :: 'G' :: '_' :: 'L' :: 'E' :: 'V' :: 'E' :: 'L'
        :: '=' :: v.data := by
    rw [String.data_append]; rfl
  have hmk : String.mk v.data = v := rfl
  simp [parseEnvFileLines, hdata, List.isPrefixOf, hmk, h]

/-- Witness for C4's amended theorem: `BOGUS` then `INFO` in a `.env` file
fails and leaves the level at DEBUG. -/
theorem C4_invalid_occurrence_witness :
    parseEnvFileLines [("LOG_LEVEL=" ++ "BOGUS"), "LOG_LEVEL=INFO"]
      LogLevel.DEBUG = (false, LogLevel.DEBUG) :=
  (C4_invalid_occurrence "BOGUS" ["LOG_LEVEL=INFO"] LogLevel.DEBUG
    (by decide)).1

/-- The `.env` line loop either succeeds or leaves the level untouched. -/
theorem envLines_cases (lines : List String) (prior : LogLevel) :
    (parseEnvFileLines lines prior).snd = prior
    ∨ (parseEnvFileLines lines prior).fst = true := by
  induction lines with
  | nil => left; rfl
  | cons line rest ih =>
    rw [parseEnvFileLines]
    split
    · exact ih
    · split_ifs
      · exact ih
      · split
        · right; rfl
        · left; rfl
      · exact ih

/-- The `.ini` line loop either succeeds or leaves the level untouched. -/
theorem iniLines_cases (lines : List String) (inLoggingSection
    foundLogLevel : Bool) (prior : LogLevel) :
    (parseIniLines lines inLoggingSection foundLogLevel prior).snd = prior
    ∨ (parseIniLines lines inLoggingSection foundLogLevel prior).fst
        = true := by
  induction lines generalizing inLoggingSection foundLogLevel with
  | nil => left; rfl
  | cons rawLine rest ih =>
    rw [parseIniLines]
    split
    · exact ih _ _
    · split_ifs
      · exact ih _ _
      · exact ih _ _
      · split
        · exact ih _ _
        · dsimp only
          split_ifs
          · split
            · right; rfl
            · exact ih _ _
          · exact ih _ _

/-- An empty path is rejected with the level untouched. -/
theorem loadConfig_empty (fs : FS) (prior : LogLevel) :
    loadConfigFromFile fs "" prior = (false, prior) := rfl

/-- A path with no dot is rejected with the level untouched. -/
theorem loadConfig_noExt (fs : FS) (path : String) (prior : LogLevel)
    (h : extensionOf path = none) :
    loadConfigFromFile fs path prior = (false, prior) := by
  rw [loadConfigFromFile]
  split_ifs
  · rfl
  · rw [h]

/-- A path whose lowercased extension is neither `.env` nor `.ini` is
rejected with the level untouched. -/
theorem loadConfig_badExt (fs : FS) (path : String) (prior : LogLevel)
    (e : String) (h : extensionOf path = some e) (he : e ≠ ".env")
    (hi : e ≠ ".ini") :
    loadConfigFromFile fs path prior = (false, prior) := by
  rw [loadConfigFromFile]
  split_ifs
  · rfl
  · rw [h]
    simp [he, hi]

/-- A missing/unopenable file is rejected with the level untouched. -/
theorem loadConfig_missing (fs : FS) (path : String) (prior : LogLevel)
    (h : fs path = none) :
    loadConfigFromFile fs path prior = (false, prior) := by
  rw [loadConfigFromFile]
  split_ifs
  · rfl
  · cases he : extensionOf path with
    | none => rfl
    | some e =>
      by_cases h1 : e = ".env"
      · simp [h1, parseEnvFile, h]
      · by_cases h2 : e = ".ini"
        · simp [h1, h2, parseIniFile, h]
        · simp [h1, h2]

/-- Whenever `loadConfigFromFile` reports failure, the level it returns is
exactly the prior level. -/
theorem loadConfig_false_snd (fs : FS) (path : String) (prior : LogLevel)
    (h : (loadConfigFromFile fs path prior).fst = false) :
    (loadConfigFromFile fs path prior).snd = prior := by
  by_cases hp : path.data = []
  · simp [loadConfigFromFile, hp]
  · cases he : extensionOf path with
    | none => simp [loadConfigFromFile, hp, he]
    | some e =>
      by_cases h1 : e = ".env"
      · subst h1
        rw [loadConfigFromFile, if_neg hp, he] at h ⊢
        dsimp only at h ⊢
        rw [if_pos rfl, parseEnvFile] at h ⊢
        cases hf : fs path with
        | none => rfl
        | some lines =>
          rw [hf] at h
          dsimp only at h ⊢
          rcases envLines_cases lines prior with hc | hc
          · exact hc
          · rw [hc] at h; cases h
      · by_cases h2 : e = ".ini"
        · subst h2
          rw [loadConfigFromFile, if_neg hp, he] at h ⊢
          dsimp only at h ⊢
          rw [if_neg (by decide), if_pos rfl, parseIniFile] at h ⊢
          cases hf : fs path with
          | none => rfl
          | some lines =>
            rw [hf] at h
            dsimp only at h ⊢
            rcases iniLines_cases lines false false prior with hc | hc
            · exact hc
            · rw [hc] at h; cases h
        · simp [loadConfigFromFile, hp, he, h1, h2]

/-- Concrete filesystem holding a readable `.env` file whose only
`LOG_LEVEL` line carries the unparseable value `NOT_A_LEVEL`. -/
def fsNotALevel : FS := fun p =>
  if p = "c.env" then some ["LOG_LEVEL=NOT_A_LEVEL"] else none

/-- Claim C5: every failure of `loadConfigFromFile` — empty path, no
extension, an extension other than `.env`/`.ini`, a missing file, or a file
with no parseable `LOG_LEVEL` value — returns `false` and leaves
`currentLevel` exactly as it was (the embedding is a total function, so no
exception can be raised). -/
theorem C5_failure_no_side_effect :
    (∀ (fs : FS) (prior : LogLevel),
      loadConfigFromFile fs "" prior = (false, prior))
    ∧ (∀ (fs : FS) (path : String) (prior : LogLevel),
        extensionOf path = none →
        loadConfigFromFile fs path prior = (false, prior))
    ∧ (∀ (fs : FS) (path : String) (prior : LogLevel) (e : String),
        extensionOf path = some e → e ≠ ".env" → e ≠ ".ini" →
        loadConfigFromFile fs path prior = (false, prior))
    ∧ (∀ (fs : FS) (path : String) (prior : LogLevel),
        fs path = none →
        loadConfigFromFile fs path prior = (false, prior))
    ∧ (∀ (fs : FS) (path : String) (prior : LogLevel),
        (loadConfigFromFile fs path prior).fst = false →
        (loadConfigFromFile fs path prior).snd = prior)
    ∧ (∀ prior : LogLevel,
        loadConfigFromFile fsNotALevel "c.env" prior = (false, prior)) :=
  ⟨loadConfig_empty, loadConfig_noExt, loadConfig_badExt,
   loadConfig_missing, loadConfig_false_snd, fun _ => rfl⟩

/-- Witness for C5 at concrete inputs: a dotless path and the
`NOT_A_LEVEL` file both fail and leave an INFO level at INFO. -/
theorem C5_failure_no_side_effect_witness :
    loadConfigFromFile fsNotALevel "noext" LogLevel.INFO
      = (false, LogLevel.INFO)
    ∧ loadConfigFromFile fsNotALevel "c.env" LogLevel.INFO
      = (false, LogLevel.INFO) :=
  ⟨C5_failure_no_side_effect.2.1 fsNotALevel "noext" LogLevel.INFO
      (by decide),
   C5_failure_no_side_effect.2.2.2.2.2 LogLevel.INFO⟩

/-- Claim C6: at Logger construction the configuration sources are tried in
the fixed order `.env`, `.ini`, `config.ini`, `settings.ini`, resolution
stops at the first source reporting success, and when every source fails
the level is explicitly set to DEBUG, the lowest severity. -/
theorem C6_construction_order (fs : FS) (prior : LogLevel) :
    ((parseEnvFile fs ".env" prior).fst = true →
      loadEnvLogLevel fs prior = (parseEnvFile fs ".env" prior).snd)
    ∧ ((parseEnvFile fs ".env" prior).fst = false →
        (parseIniFile fs ".ini" prior).fst = true →
        loadEnvLogLevel fs prior = (parseIniFile fs ".ini" prior).snd)
    ∧ ((parseEnvFile fs ".env" prior).fst = false →
        (parseIniFile fs ".ini" prior).fst = false →
        (parseIniFile fs "config.ini" prior).fst = true →
        loadEnvLogLevel fs prior = (parseIniFile fs "config.ini" prior).snd)
    ∧ ((parseEnvFile fs ".env" prior).fst = false →
        (parseIniFile fs ".ini" prior).fst = false →
        (parseIniFile fs "config.ini" prior).fst = false →
        (parseIniFile fs "settings.ini" prior).fst = true →
        loadEnvLogLevel fs prior
          = (parseIniFile fs "settings.ini" prior).snd)
    ∧ ((parseEnvFile fs ".env" prior).fst = false →
        (parseIniFile fs ".ini" prior).fst = false →
        (parseIniFile fs "config.ini" prior).fst = false →
        (parseIniFile fs "settings.ini" prior).fst = false →
        loadEnvLogLevel fs prior = LogLevel.DEBUG) := by
  rcases he : parseEnvFile fs ".env" prior with ⟨eb, el⟩
  rcases hi1 : parseIniFile fs ".ini" prior with ⟨b1, l1⟩
  rcases hi2 : parseIniFile fs "config.ini" prior with ⟨b2, l2⟩
  rcases hi3 : parseIniFile fs "settings.ini" prior with ⟨b3, l3⟩
  rw [loadEnvLogLevel, he, hi1, hi2, hi3]
  refine ⟨?_, ?_, ?_, ?_, ?_⟩
  · intro h; simp at h; subst h; rfl
  · intro h h1; simp at h h1; subst h; subst h1; rfl
  · intro h h1 h2; simp at h h1 h2; subst h; subst h1; subst h2; rfl
  · intro h h1 h2 h3; simp at h h1 h2 h3
    subst h; subst h1; subst h2; subst h3; rfl
  · intro h h1 h2 h3; simp at h h1 h2 h3
    subst h; subst h1; subst h2; subst h3; rfl

/-- Witness for C6 at concrete inputs: with no config files at all the
constructor path ends at DEBUG even from an INFO prior, and with only
`config.ini` present its level wins. -/
theorem C6_construction_order_witness :
    loadEnvLogLevel (fun _ => none) LogLevel.INFO = LogLevel.DEBUG
    ∧ loadEnvLogLevel
        (fun p => if p = "config.ini" then some ["LOG_LEVEL=WARN"]
          else none) LogLevel.INFO = LogLevel.WARN :=
  ⟨(C6_construction_order (fun _ => none) LogLevel.INFO).2.2.2.2
      rfl rfl rfl rfl,
   (C6_construction_order
      (fun p => if p = "config.ini" then some ["LOG_LEVEL=WARN"]
        else none) LogLevel.INFO).2.2.1 rfl rfl rfl⟩

/-- Concrete filesystem holding a readable `.env` file with no `LOG_LEVEL`
occurrence at all, and a readable `.env` file with a valid one. -/
def fsReadablePair : FS := fun p =>
  if p = "a.env" then some ["FOO=1"]
  else if p = "b.env" then some ["LOG_LEVEL=INFO"]
  else none

/-- Counterexample to claim C7: the file `a.env` exists and is readable but
holds no valid `LOG_LEVEL` occurrence, and `loadConfigFromFile` returns
`false` for it — not `true` as the claim states. -/
theorem C7_counterexample :
    fsReadablePair "a.env" = some ["FOO=1"]
    ∧ loadConfigFromFile fsReadablePair "a.env" LogLevel.DEBUG
        = (false, LogLevel.DEBUG) := ⟨rfl, rfl⟩

/-- Claim C7 as amended: the boolean result of `loadConfigFromFile` reports
that a valid `LOG_LEVEL` value was found and applied, not mere readability:
success requires the file to be openable, a readable file without a valid
occurrence yields `false` with the level unchanged, and a readable file
with one yields `true`. -/
theorem C7_result_means_parsed (fs : FS) (path : String)
    (prior : LogLevel) :
    ((loadConfigFromFile fs path prior).fst = true → fs path ≠ none)
    ∧ loadConfigFromFile fsReadablePair "a.env" prior = (false, prior)
    ∧ loadConfigFromFile fsReadablePair "b.env" prior
        = (true, LogLevel.INFO) := by
  refine ⟨?_, rfl, rfl⟩
  intro h hn
  rw [loadConfig_missing fs path prior hn] at h
  cases h

/-- Witness for C7's amended theorem: success on `b.env` implies that file
was present. -/
theorem C7_result_means_parsed_witness :
    fsReadablePair "b.env" ≠ none :=
  (C7_result_means_parsed fsReadablePair "b.env" LogLevel.DEBUG).1 rfl

/-- Claim C8: in the rendered block of a passing event, the connector glyph
closes the block on its last line — with both trace and details present the
trace line carries the continuation glyph and the (final) detail line the
closing glyph; with only one of them present, that single extra line
carries the closing glyph alone. -/
theorem C8_connector_glyphs (currentLevel : LogLevel) (timestamp : String)
    (level : LogLevel) (tag message details trace b : String)
    (hb : logInternal currentLevel timestamp level tag message details trace
      = some b) :
    (trace ≠ "" → details ≠ "" →
      b = mainLine timestamp level tag message
        ++ traceLine timestamp "┃" trace
        ++ detailLine timestamp details)
    ∧ (trace ≠ "" → details = "" →
      b = mainLine timestamp level tag message
        ++ traceLine timestamp "┗" trace)
    ∧ (trace = "" → details ≠ "" →
      b = mainLine timestamp level tag message
        ++ detailLine timestamp details) := by
  have hrender : b = renderBlock timestamp level tag message details trace := by
    rw [logInternal] at hb
    split_ifs at hb
    exact (Option.some_injective _ hb).symm
  subst hrender
  refine ⟨?_, ?_, ?_⟩
  · intro ht hd
    rw [renderBlock]
    rw [if_neg (by exact fun hcon => hd hcon.2)]
    rw [if_pos ht, if_pos hd, String.append_assoc]
  · intro ht hd
    rw [renderBlock, if_pos ⟨ht, hd⟩]
  · intro ht hd
    rw [renderBlock]
    rw [if_neg (by exact fun hcon => hcon.1 ht)]
    rw [if_neg (by exact fun hcon => hcon ht), if_pos hd]
    have : (("" : String) ++ detailLine timestamp details)
        = detailLine timestamp details := by
      simp
    rw [this]

/-- Witness for C8 at concrete inputs: both extra lines with their glyphs
when trace and details are both present. -/
theorem C8_connector_glyphs_witness :
    renderBlock "T" LogLevel.INFO "t" "m" "d" "at x:1 [f]"
      = mainLine "T" LogLevel.INFO "t" "m"
        ++ traceLine "T" "┃" "at x:1 [f]"
        ++ detailLine "T" "d" :=
  (C8_connector_glyphs LogLevel.DEBUG "T" LogLevel.INFO "t" "m" "d"
      "at x:1 [f]" (renderBlock "T" LogLevel.INFO "t" "m" "d" "at x:1 [f]")
      rfl).1 (by decide) (by decide)

/-- The first `:` in `p ++ ':' :: r` sits at index `p.length` when `p`
itself holds no colon. -/
theorem findSub_colon (p r : List Char) (hp : ∀ c ∈ p, c ≠ ':') :
    findSubList [':'] (p ++ ':' :: r) = some p.length := by
  induction p with
  | nil => simp [findSubList, List.isPrefixOf]
  | cons x t ih =>
    have hx : x ≠ ':' := hp x (by simp)
    have ht : ∀ c ∈ t, c ≠ ':' := fun c hc => hp c (by simp [hc])
    rw [List.cons_append, findSubList,
      if_neg (by simp [List.isPrefixOf]; exact fun h => hx h.symm)]
    rw [ih ht]
    rfl

/-- The keep-chars-since-last-separator fold agrees with dropping past the
last separator index. -/
theorem foldl_sep (p : List Char) (acc : List Char) :
    p.foldl (fun acc c => if isPathSep c then [] else acc ++ [c]) acc
      = match findLastIdx isPathSep p with
        | some i => p.drop (i + 1)
        | none => acc ++ p := by
  induction p generalizing acc with
  | nil => simp [findLastIdx]
  | cons x t ih =>
    rw [List.foldl_cons, ih, findLastIdx]
    cases hft : findLastIdx isPathSep t with
    | some i => simp
    | none =>
      by_cases hx : isPathSep x
      · simp [hx]
      · simp [hx]

/-- Two strings with the same char data are equal. -/
theorem string_eq_of_data (a b : String) (h : a.data = b.data) : a = b := by
  cases a; cases b; cases h; rfl


/-- Claim C9 as amended: for trace strings `at <path>:<line> [<function>]`
whose path holds no colon, `extractFilename` returns the same string with
the path replaced by its final component, treating both `/` and `\\` as
separators, everything after the first colon preserved unchanged; the
amendment excludes paths containing `:` (e.g. Windows drive letters), which
the code returns unchanged because it splits at the first colon after
`at `. -/
theorem C9_extract_filename (path rest : String)
    (hp : ∀ c ∈ path.data, c ≠ ':') :
    extractFilename ("at " ++ path ++ ":" ++ rest)
      = "at " ++ lastComponent path ++ ":" ++ rest := by
  have hdata : ("at " ++ path ++ ":" ++ rest).data
      = 'a' :: 't' :: ' ' :: (path.data ++ ':' :: rest.data) := by
    simp only [String.data_append, List.append_assoc]
    rfl
  have hat : "at ".data = ['a', 't', ' '] := rfl
  have hcl : ":".data = [':'] := rfl
  have hfind : findSubList "at ".data
      ('a' :: 't' :: ' ' :: (path.data ++ ':' :: rest.data)) = some 0 := by
    rw [hat, findSubList, if_pos (by simp [List.isPrefixOf])]
  have hcolon : findSubList [':']
      (('a' :: 't' :: ' ' :: (path.data ++ ':' :: rest.data)).drop 3)
      = some path.data.length := by
    exact findSub_colon path.data rest.data hp
  rw [extractFilename]
  rw [hdata, hfind]
  split
  case h_1 heq => exact Option.noConfusion heq
  case h_2 equalPos heq =>
    injection heq with h0
    subst h0
    dsimp only
    simp only [Nat.zero_add]
    rw [hcolon]
    simp only [Option.map_some']
    have harith : path.data.length + 3 - 3 = path.data.length := by omega
    rw [harith]
    rw [show List.drop 3 ('a' :: 't' :: ' ' :: (path.data ++ ':' :: rest.data))
        = path.data ++ ':' :: rest.data from rfl]
    rw [List.take_left]
    apply string_eq_of_data
    have hdrop : List.drop (path.data.length + 3)
        ('a' :: 't' :: ' ' :: (path.data ++ ':' :: rest.data))
        = ':' :: rest.data := by
      rw [show List.drop (path.data.length + 3)
          ('a' :: 't' :: ' ' :: (path.data ++ ':' :: rest.data))
          = List.drop path.data.length (path.data ++ ':' :: rest.data)
          from rfl]
      exact List.drop_left _ _
    have htake : List.take 3
        ('a' :: 't' :: ' ' :: (path.data ++ ':' :: rest.data))
        = ['a', 't', ' '] := rfl
    cases hsep : findLastIdx isPathSep path.data with
    | some i =>
      have hlc : (lastComponent path).data = path.data.drop (i + 1) := by
        have hf := foldl_sep path.data []
        rw [hsep] at hf
        exact hf
      simp only [hsep, hdrop, htake, String.data_append, hlc, hat, hcl,
        List.append_assoc, List.singleton_append]
    | none =>
      have hlc : (lastComponent path).data = path.data := by
        have hf := foldl_sep path.data []
        rw [hsep] at hf
        simpa using hf
      simp only [hsep, hdrop, htake, String.data_append, hlc, hat, hcl,
        List.append_assoc, List.singleton_append]

/-- Witness for C9's amended theorem at a concrete Unix-style trace. -/
theorem C9_extract_filename_witness :
    extractFilename ("at " ++ "src/net/file.cpp" ++ ":" ++ "42 [main]")
      = "at " ++ lastComponent "src/net/file.cpp" ++ ":" ++ "42 [main]" :=
  C9_extract_filename "src/net/file.cpp" "42 [main]" (by decide)

/-- Counterexample to claim C9: the trace
`at C:\\dir\\file.cpp:42 [main]` is of the form
`at <path>:<line> [<function>]` with a backslash-separated path, but
`extractFilename` returns it unchanged instead of shortening the path to
`file.cpp`, because the first colon after `at ` is the drive colon. -/
theorem C9_counterexample :
    extractFilename "at C:\\dir\\file.cpp:42 [main]"
        = "at C:\\dir\\file.cpp:42 [main]"
    ∧ extractFilename "at C:\\dir\\file.cpp:42 [main]"
        ≠ "at file.cpp:42 [main]" := by
  exact ⟨rfl, by decide⟩

/-- Concrete filesystem holding a `.env` file and an `.ini` file whose only
`LOG_LEVEL` line is preceded by a space. -/
def fsIndented : FS := fun p =>
  if p = "ws.env" then some [" LOG_LEVEL=INFO"]
  else if p = "ws.ini" then some [" LOG_LEVEL=INFO"]
  else none

/-- Claim C10 (implicit): `.env` parsing recognizes a `LOG_LEVEL`
assignment only when `LOG_LEVEL=` starts at the first character of the
line — any line not starting with it, a whitespace-indented assignment
included, is merely skipped — so a `.env` file whose only `LOG_LEVEL` line
is preceded by whitespace fails to load and leaves the level unchanged,
while `.ini` parsing trims leading whitespace first and accepts the same
line. -/
theorem C10_env_anchored_match (prior : LogLevel) :
    (∀ (line : String) (rest : List String),
      ("LOG_LEVEL=".data.isPrefixOf line.data) = false →
      parseEnvFileLines (line :: rest) prior = parseEnvFileLines rest prior)
    ∧ loadConfigFromFile fsIndented "ws.env" prior = (false, prior)
    ∧ loadConfigFromFile fsIndented "ws.ini" prior
        = (true, LogLevel.INFO) := by
  refine ⟨?_, rfl, rfl⟩
  intro line rest h
  cases hl : line.data with
  | nil => rw [parseEnvFileLines, hl]
  | cons c cs =>
    rw [hl] at h
    rw [parseEnvFileLines, hl]
    dsimp only
    by_cases hc : c = '#'
    · rw [if_pos hc]
    · rw [if_neg hc, if_neg (by simp [h])]

/-- Witness for C10 at a concrete input: the indented line is skipped by
the `.env` line loop. -/
theorem C10_env_anchored_match_witness :
    parseEnvFileLines [" LOG_LEVEL=INFO"] LogLevel.DEBUG
      = parseEnvFileLines [] LogLevel.DEBUG :=
  (C10_env_anchored_match LogLevel.DEBUG).1 " LOG_LEVEL=INFO" [] (by decide)

/-- Witness for C3's amended theorem at concrete tokens: quoted `WARNING`
normalizes to `WARNING` and is accepted as WARN. -/
theorem C3_accepted_tokens_witness :
    parseLogLevelString "\"WARNING\"" = some LogLevel.WARN :=
  (C3_accepted_tokens "\"WARNING\"" LogLevel.WARN).mpr
    (Or.inr (Or.inr (Or.inl ⟨Or.inl (by decide), rfl⟩)))
